import Mathlib

/-!
Verification development for the SEO analyzer (crawler + sitemap reconciler +
report aggregator, `SEOAnalyzer`) and its AI meta-optimizer helper
(`SEOAIOptimizer`).

The JavaScript source is shallowly embedded as pure Lean functions.  Mutable
instance state of `SEOAnalyzer` becomes an explicit `CrawlState` value threaded
through the functions.  External collaborators (the HTTP fetcher `axios`, the
WHATWG `URL` resolver, the HTML parser `cheerio`, the XML sitemap parser, the
OpenAI client and the JSON/HTML renderers) are modelled as oracle fields of a
`World` record, exactly at the interfaces the source uses them.

JavaScript string primitives (`startsWith`, `endsWith`, `toLowerCase`,
`split`) are re-implemented on character lists so that every definition
evaluates inside the kernel (`decide` / `rfl`).
-/

/-- JS `String.prototype.startsWith` (character-exact prefix test). -/
def strStartsWith (s pre : String) : Bool :=
  List.isPrefixOf pre.toList s.toList

/-- JS `String.prototype.endsWith` (character-exact suffix test). -/
def strEndsWith (s suf : String) : Bool :=
  List.isSuffixOf suf.toList s.toList

/-- JS `String.prototype.toLowerCase`, ASCII range (sufficient for URLs and
file extensions, the only places the source applies it). -/
def strToLower (s : String) : String :=
  String.mk (s.toList.map Char.toLower)

/-- JS `String.prototype.split(sep)` for a single-character separator. -/
def splitOnChar (c : Char) : List Char → List (List Char)
  | [] => [[]]
  | x :: xs =>
    match splitOnChar c xs with
    | [] => if x = c then [[], []] else [[x]]
    | y :: ys => if x = c then [] :: y :: ys else (x :: y) :: ys

/-- JS `Set.prototype.add`: append if absent, keep insertion order. -/
def listInsert (s : List String) (x : String) : List String :=
  if x ∈ s then s else s ++ [x]

/-- JS `Map.prototype.get` on an insertion-ordered association list. -/
def aGet {β : Type} : List (String × β) → String → Option β
  | [], _ => none
  | p :: rest, k => if p.1 = k then some p.2 else aGet rest k

/-- JS `Map.prototype.set`: replace the value in place if the key exists,
otherwise append (insertion order preserved). -/
def aSet {β : Type} : List (String × β) → String → β → List (String × β)
  | [], k, v => [(k, v)]
  | p :: rest, k, v => if p.1 = k then (k, v) :: rest else p :: aSet rest k v

/-- In-place mutation of the object stored under an existing key
(JS `map.get(k).field = v`). -/
def aUpdate {β : Type} : List (String × β) → String → (β → β) → List (String × β)
  | [], _, _ => []
  | p :: rest, k, f => if p.1 = k then (p.1, f p.2) :: rest else p :: aUpdate rest k f

/-- One entry of `this.brokenLinks`: `{ url, status, error? }`. -/
structure BrokenLink where
  url : String
  status : Nat
  error : Option String := none
deriving DecidableEq

/-- Result shape of `SEOAIOptimizer.analyzePageContent` after its own
field normalisation (all five fields are arrays). -/
structure PageAnalysis where
  mainKeywords : List String := []
  longTailKeywords : List String := []
  relatedTopics : List String := []
  contentStructure : List String := []
  seoSuggestions : List String := []
deriving DecidableEq

/-- The `aiSuggestions` object attached to a page's meta-tags record. -/
structure AiSuggestions where
  optimizedTitle : String
  optimizedDescription : String
  keywordSuggestions : List String
deriving DecidableEq

/-- The per-page `metaTags` object: the name→content map built from `<meta>`
elements, plus the dynamically attached `aiSuggestions` / `contentAnalysis`. -/
structure MetaInfo where
  tags : List (String × String) := []
  aiSuggestions : Option AiSuggestions := none
  contentAnalysis : Option PageAnalysis := none
deriving DecidableEq

/-- What the HTML parser collaborator (`cheerio`) yields for a fetched page:
trimmed title text, the `description` meta content attribute (absent =
`none`), trimmed first-H1 text, `(name-or-property, content)` pairs of the
`<meta>` elements, and the `href` attributes of `<a>` elements in document
order (`""` stands for a missing/empty attribute, which JS treats as falsy). -/
structure Page where
  title : String := ""
  description : Option String := none
  h1 : String := ""
  metaPairs : List (String × String) := []
  hrefs : List String := []
deriving DecidableEq

/-- Outcome of `axios.get(url)` as `fetchPage` observes it: the promise
resolves with a status and a body (`none` = empty/falsy `response.data`),
rejects with an HTTP response attached (`error.response.status`), or rejects
at the transport level with only an error message. -/
inductive FetchOutcome where
  | success (status : Nat) (body : Option Page)
  | httpError (status : Nat)
  | netError (msg : String)
deriving DecidableEq

/-- A fetched-and-XML-parsed sitemap document: a `sitemapindex` root listing
child sitemap URLs, a `urlset` root listing page URLs, or anything else
(parse error / unexpected root, which `parseSitemap` rejects). -/
inductive SitemapDoc where
  | index (children : List String)
  | urlset (urls : List String)
  | malformed
deriving DecidableEq

/-- External collaborators, fixed for one run. -/
structure World where
  /-- `axios.get` on a page URL. -/
  fetch : String → FetchOutcome
  /-- `new URL(link, base).href`; `none` models the constructor throwing. -/
  resolve : String → String → Option String
  /-- `SEOAIOptimizer.analyzePageContent` as invoked from `analyzePage`
  (url, parsed page ↦ analysis); `none` models the whole `analyzePage`
  body throwing, which is caught and leaves no further state change. -/
  analyzeContent : String → Page → Option PageAnalysis
  /-- `SEOAIOptimizer.optimizeMetaTags` (title, description, keywords);
  `none` models a throw, caught inside `extractMetadata`. -/
  optimizeMeta : String → String → List String → Option AiSuggestions
  /-- GET + XML-parse of a sitemap URL; `none` = fetch failure. -/
  sitemap : String → Option SitemapDoc

/-- The mutable state of one `SEOAnalyzer` instance, plus the ghost
`fetchLog` trace recording every initiated `axios.get` page fetch (the
observable used to state at-most-once fetching). -/
structure CrawlState where
  visitedUrls : List String := []
  staticResources : List String := []
  brokenLinks : List BrokenLink := []
  internalLinks : List (String × List String) := []
  externalLinks : List (String × List String) := []
  pagesTitles : List (String × String) := []
  pagesDescriptions : List (String × String) := []
  pagesH1 : List (String × String) := []
  sitemapUrls : List String := []
  urlsNotInSitemap : List String := []
  urlsInSitemapButNotCrawled : List String := []
  statusCodes : List (String × Nat) := []
  pagesTitlesWarnings : List (String × Nat) := []
  pagesDescriptionsWarnings : List (String × Nat) := []
  pagesMetaTags : List (String × MetaInfo) := []
  keywords : List String := []
  fetchLog : List String := []
deriving DecidableEq

/-- `config.seo.keywords` from `config.js`. -/
def configKeywords : List String :=
  ["hydraulik", "lublin", "instalacje", "wodno-kanalizacyjne", "ogrzewanie",
   "podłogowe", "kotłownie", "gazowe", "biały montaż", "serwis", "naprawa",
   "instalacje co", "instalacje wodno-kanalizacyjne", "ogrzewanie podłogowe",
   "instalacje gazowe", "doradztwo techniczne", "naprawa instalacji",
   "modernizacja", "montaż"]

/-- Constructor state of a fresh `SEOAnalyzer` (all collections empty,
keywords loaded from config). -/
def initState : CrawlState := { keywords := configKeywords }

/-- `isInternalUrl`: raw prefix test against `/` or the base origin string. -/
def isInternalUrl (baseUrl link : String) : Bool :=
  strStartsWith link "/" || strStartsWith link baseUrl

/-- `normalizeUrl`: root-relative links resolve against the origin,
scheme-less links resolve against the current page URL, anything starting
with `http` passes through; `none` = the `URL` constructor threw. -/
def normalizeUrl (w : World) (baseUrl link currentUrl : String) : Option String :=
  if strStartsWith link "/" then w.resolve link baseUrl
  else if !(strStartsWith link "http") then w.resolve link currentUrl
  else some link

/-- The `ignoreExtensions` array of `shouldCrawl`. -/
def ignoreExtensions : List String :=
  [".jpg", ".jpeg", ".png", ".gif", ".pdf", ".doc", ".zip", ".css", ".js",
   ".webp", ".svg", ".ico", ".woff", ".woff2", ".ttf", ".eot"]

/-- The static-resource test of `shouldCrawl`:
`url.toLowerCase().endsWith(ext)` over the whole URL string. -/
def isStaticUrl (url : String) : Bool :=
  ignoreExtensions.any (fun ext => strEndsWith (strToLower url) ext)

/-- `shouldCrawl(url)`: returns the boolean and the state after its side
effect (static resources are recorded inside the test). -/
def shouldCrawl (url : String) (st : CrawlState) : Bool × CrawlState :=
  if isStaticUrl url then
    (false, { st with staticResources := listInsert st.staticResources url })
  else (true, st)

/-- `fetchPage(url)`: logs the initiated fetch, records the status code,
and appends a broken-link entry when the promise rejects.  Returns
`((html, status), state)` with `html = none` for an empty/absent body. -/
def fetchPage (w : World) (url : String) (st : CrawlState) :
    (Option Page × Nat) × CrawlState :=
  let st := { st with fetchLog := st.fetchLog ++ [url] }
  match w.fetch url with
  | .success s body =>
    ((body, s), { st with statusCodes := aSet st.statusCodes url s })
  | .httpError s =>
    ((none, s),
     { st with statusCodes := aSet st.statusCodes url s,
               brokenLinks := st.brokenLinks ++ [{ url := url, status := s }] })
  | .netError msg =>
    ((none, 0),
     { st with statusCodes := aSet st.statusCodes url 0,
               brokenLinks := st.brokenLinks ++
                 [{ url := url, status := 0, error := some msg }] })

/-- The meta-tags object of `extractMetadata`: pairs with a truthy name and
content, last occurrence winning. -/
def buildMetaTags (pairs : List (String × String)) : List (String × String) :=
  pairs.foldl (fun m p => if p.1 = "" ∨ p.2 = "" then m else aSet m p.1 p.2) []

/-- `analyzePage(url, $)`: runs the AI content analysis, ensures a meta-tags
entry exists, attaches `contentAnalysis`, and adds the AI keywords to the
keyword set.  A throw anywhere (`none` oracle) is caught and leaves the
state unchanged. -/
def analyzePage (w : World) (url : String) (page : Page) (st : CrawlState) :
    CrawlState :=
  match w.analyzeContent url page with
  | none => st
  | some pa =>
    let mi := (aGet st.pagesMetaTags url).getD {}
    let mi := { mi with contentAnalysis := some pa }
    { st with
      pagesMetaTags := aSet st.pagesMetaTags url mi,
      keywords := (pa.mainKeywords ++ pa.longTailKeywords).foldl listInsert st.keywords }

/-- JS truthiness of the optional `description` attribute. -/
def truthyOpt : Option String → Bool
  | none => false
  | some s => !(s = "")

/-- The title block of `extractMetadata`: record a truthy title and its
out-of-range length warning (bounds 30–60). -/
def metaTitleStep (url title : String) (st : CrawlState) : CrawlState :=
  if title = "" then st
  else
    let st := { st with pagesTitles := aSet st.pagesTitles url title }
    if title.length < 30 ∨ 60 < title.length then
      { st with pagesTitlesWarnings := aSet st.pagesTitlesWarnings url title.length }
    else st

/-- The description block of `extractMetadata` (bounds 120–160). -/
def metaDescriptionStep (url : String) (odesc : Option String)
    (st : CrawlState) : CrawlState :=
  match odesc with
  | none => st
  | some d =>
    if d = "" then st
    else
      let st := { st with pagesDescriptions := aSet st.pagesDescriptions url d }
      if d.length < 120 ∨ 160 < d.length then
        { st with pagesDescriptionsWarnings :=
            (aSet st.pagesDescriptionsWarnings url d.length) }
      else st

/-- The meta-tags block of `extractMetadata`: always stores a fresh object
(overwriting any previous entry for the URL, including the
`contentAnalysis` attached by `analyzePage`). -/
def metaTagsStep (url : String) (page : Page) (st : CrawlState) : CrawlState :=
  { st with pagesMetaTags :=
      (aSet st.pagesMetaTags url { tags := buildMetaTags page.metaPairs }) }

/-- The H1 block of `extractMetadata`. -/
def metaH1Step (url h1 : String) (st : CrawlState) : CrawlState :=
  if h1 = "" then st
  else { st with pagesH1 := aSet st.pagesH1 url h1 }

/-- The AI block of `extractMetadata`: when title or description is truthy,
call the optimizer and attach its suggestions to the page's meta-tags
object; a throw (`none`) is caught and logged only. -/
def metaAiStep (w : World) (url title : String) (odesc : Option String)
    (st : CrawlState) : CrawlState :=
  if title = "" && !(truthyOpt odesc) then st
  else
    match w.optimizeMeta title (odesc.getD "") st.keywords with
    | none => st
    | some od =>
      { st with pagesMetaTags :=
          (aUpdate st.pagesMetaTags url (fun mi => { mi with aiSuggestions := some od })) }

/-- `extractMetadata($, url)`: record title/description (when truthy) with
length warnings, rebuild the meta-tags object (overwriting any previous
entry), record the first H1, and attach AI suggestions when the optimizer
call succeeds. -/
def extractMetadata (w : World) (url : String) (page : Page) (st : CrawlState) :
    CrawlState :=
  let st := metaTitleStep url page.title st
  let st := metaDescriptionStep url page.description st
  let st := metaTagsStep url page st
  let st := metaH1Step url page.h1 st
  metaAiStep w url page.title page.description st

/-- Anchor/`javascript:`/`mailto:`/`tel:` links are skipped. -/
def specialHref (h : String) : Bool :=
  strStartsWith h "#" || strStartsWith h "javascript:" ||
  strStartsWith h "mailto:" || strStartsWith h "tel:"

/-- The `$("a").each` loop of `extractLinks`: accumulates the deduplicated
normalized link set and the per-page internal/external lists.  Note the
classification tests the RAW `href`, while the pushed value is the
normalized URL. -/
def extractLinksLoop (w : World) (baseUrl currentUrl : String) :
    List String → List String → List String → List String →
    List String × List String × List String
  | [], links, intAcc, extAcc => (links, intAcc, extAcc)
  | h :: rest, links, intAcc, extAcc =>
    if h = "" then extractLinksLoop w baseUrl currentUrl rest links intAcc extAcc
    else if specialHref h then extractLinksLoop w baseUrl currentUrl rest links intAcc extAcc
    else
      match normalizeUrl w baseUrl h currentUrl with
      | none => extractLinksLoop w baseUrl currentUrl rest links intAcc extAcc
      | some n =>
        let links := listInsert links n
        if isInternalUrl baseUrl h then
          extractLinksLoop w baseUrl currentUrl rest links (intAcc ++ [n]) extAcc
        else
          extractLinksLoop w baseUrl currentUrl rest links intAcc (extAcc ++ [n])

/-- `extractLinks($, currentUrl)`: returns the link set and stores the
per-page internal/external link lists. -/
def extractLinks (w : World) (baseUrl currentUrl : String) (page : Page)
    (st : CrawlState) : List String × CrawlState :=
  let r := extractLinksLoop w baseUrl currentUrl page.hrefs [] [] []
  (r.1, { st with internalLinks := aSet st.internalLinks currentUrl r.2.1,
                  externalLinks := aSet st.externalLinks currentUrl r.2.2 })

/-- The recursive crawl, structurally bounded by a gas parameter.  The
wrapper `crawl` below instantiates `gas := maxDepth + 1 - depth`, which makes
the unfolding coincide exactly with the source recursion (see
`crawl_unfold`): the guard `depth > maxDepth` fires precisely when the gas
would run out. -/
def crawlGas (w : World) (baseUrl : String) :
    Nat → String → Nat → Nat → CrawlState → CrawlState
  | 0, _, _, _, st => st
  | gas + 1, url, depth, maxDepth, st =>
    if maxDepth < depth then st
    else if url ∈ st.visitedUrls then st
    else
      match shouldCrawl url st with
      | (false, st) => st
      | (true, st) =>
        let st := { st with visitedUrls := st.visitedUrls ++ [url] }
        match fetchPage w url st with
        | ((some page, status), st) =>
          if status = 200 then
            let st := analyzePage w url page st
            let st := extractMetadata w url page st
            let r := extractLinks w baseUrl url page st
            r.1.foldl
              (fun s l =>
                if isInternalUrl baseUrl l then
                  crawlGas w baseUrl gas l (depth + 1) maxDepth s
                else s)
              r.2
          else st
        | ((none, _), st) => st

/-- `crawl(url, depth, maxDepth)` of `SEOAnalyzer`. -/
def crawl (w : World) (baseUrl url : String) (depth maxDepth : Nat)
    (st : CrawlState) : CrawlState :=
  crawlGas w baseUrl (maxDepth + 1 - depth) url depth maxDepth st

/-- Source-shaped unfolding of `crawl`: the gas-free recurrence that mirrors
the JavaScript body literally (early returns, visit-before-fetch, recursion
into internal links at `depth + 1`). -/
def crawlBody (w : World) (baseUrl url : String) (depth maxDepth : Nat)
    (st : CrawlState) : CrawlState :=
  if maxDepth < depth then st
  else if url ∈ st.visitedUrls then st
  else
    match shouldCrawl url st with
    | (false, st) => st
    | (true, st) =>
      let st := { st with visitedUrls := st.visitedUrls ++ [url] }
      match fetchPage w url st with
      | ((some page, status), st) =>
        if status = 200 then
          let st := analyzePage w url page st
          let st := extractMetadata w url page st
          let r := extractLinks w baseUrl url page st
          r.1.foldl
            (fun s l =>
              if isInternalUrl baseUrl l then
                crawl w baseUrl l (depth + 1) maxDepth s
              else s)
            r.2
        else st
      | ((none, _), st) => st

/-- `processSitemap(urlset)`: add every page URL to the sitemap set. -/
def processSitemap (urls : List String) (acc : List String) : List String :=
  urls.foldl listInsert acc

/-- `processSitemapIndex(sitemapindex)`: for each child sitemap URL, fetch
it and recursively parse it (`parseChild`, the recursive `parseSitemap`
call); a child fetch failure or parse reject is caught and its siblings
continue, with sitemap URLs added before a reject persisting (the source
mutates `this.sitemapUrls` in place). -/
def processSitemapIndex (w : World)
    (parseChild : SitemapDoc → List String → Option (List String × Bool))
    (children : List String) (acc : List String) : Option (List String) :=
  children.foldl
    (fun macc c =>
      match macc with
      | none => none
      | some acc =>
        match w.sitemap c with
        | none => some acc
        | some doc =>
          match parseChild doc acc with
          | none => none
          | some r => some r.1)
    (some acc)

/-- `parseSitemap(xml)`, indexed by fuel because the source has no
visited-sitemap guard and genuinely diverges on cyclic indexes: a `none`
result means the nested index recursion exceeded every bound (i.e. the real
code does not terminate).  Returns the sitemap-URL accumulator together
with `true` for a normal resolve and `false` for a reject (malformed
document / unexpected root). -/
def parseSitemapFuel (w : World) : Nat → SitemapDoc → List String →
    Option (List String × Bool)
  | 0, _, _ => none
  | fuel + 1, doc, acc =>
    match doc with
    | .urlset urls => some (processSitemap urls acc, true)
    | .malformed => some (acc, false)
    | .index children =>
      (processSitemapIndex w (parseSitemapFuel w fuel) children acc).map (·, true)

/-- `compareCrawlWithSitemap()`: both set differences, in source order. -/
def compareCrawlWithSitemap (st : CrawlState) : CrawlState :=
  let n1 := st.visitedUrls.foldl
    (fun acc u => if u ∈ st.sitemapUrls then acc else listInsert acc u)
    st.urlsNotInSitemap
  let n2 := st.sitemapUrls.foldl
    (fun acc u => if u ∈ st.visitedUrls then acc else listInsert acc u)
    st.urlsInSitemapButNotCrawled
  { st with urlsNotInSitemap := n1, urlsInSitemapButNotCrawled := n2 }

/-- The `status` field of a report record: a number, or the string
`"unknown"` produced by `this.statusCodes.get(url) || "unknown"` (which
also fires on a stored `0`, since `0` is falsy). -/
inductive StatusVal where
  | num (n : Nat)
  | unknown
deriving DecidableEq

/-- One entry of the report's `pageMeta` array. -/
structure PageMetaRecord where
  url : String
  status : StatusVal
  title : String
  titleLength : Nat
  description : String
  descriptionLength : Nat
  h1 : String
  internalLinksCount : Nat
  externalLinksCount : Nat
  metaTags : MetaInfo
deriving DecidableEq

/-- The report's `crawlStats` object. -/
structure CrawlStats where
  totalUrlsCrawled : Nat
  totalStaticResources : Nat
  brokenLinks : Nat
  totalInternalLinks : Nat
  totalExternalLinks : Nat
  urlsWithoutTitle : List String
  urlsWithoutDescription : List String
  urlsWithoutH1 : List String
  urlsWithInvalidTitleLength : List (String × Nat)
  urlsWithInvalidDescriptionLength : List (String × Nat)
deriving DecidableEq

/-- The report's `sitemapStats` object. -/
structure SitemapStats where
  totalUrlsInSitemap : Nat
  urlsNotInSitemap : List String
  urlsInSitemapButNotCrawled : List String
deriving DecidableEq

/-- One entry of the report's `staticResources` array. -/
structure StaticRecord where
  url : String
  type : String
  status : StatusVal
deriving DecidableEq

/-- The report object assembled by `generateReport`. -/
structure Report where
  baseUrl : String
  dateGenerated : String
  issues : List String
  crawlStats : CrawlStats
  sitemapStats : SitemapStats
  brokenLinks : List BrokenLink
  pageMeta : List PageMetaRecord
  staticResources : List StaticRecord
deriving DecidableEq

/-- `this.statusCodes.get(url) || "unknown"`. -/
def statusField (st : CrawlState) (url : String) : StatusVal :=
  match aGet st.statusCodes url with
  | some s => if s = 0 then .unknown else .num s
  | none => .unknown

/-- One `pageMeta` record, with the `||` / `?.` defaults of the source. -/
def pageRecordFor (st : CrawlState) (url : String) : PageMetaRecord :=
  { url := url
    status := statusField st url
    title := (aGet st.pagesTitles url).getD ""
    titleLength := ((aGet st.pagesTitles url).map String.length).getD 0
    description := (aGet st.pagesDescriptions url).getD ""
    descriptionLength := ((aGet st.pagesDescriptions url).map String.length).getD 0
    h1 := (aGet st.pagesH1 url).getD ""
    internalLinksCount := ((aGet st.internalLinks url).getD []).length
    externalLinksCount := ((aGet st.externalLinks url).getD []).length
    metaTags := (aGet st.pagesMetaTags url).getD {} }

/-- `url.split(".").pop().toLowerCase()` of a static-resource entry. -/
def staticType (url : String) : String :=
  strToLower (String.mk ((splitOnChar (Char.ofNat 46) url.toList).getLastD []))

/-- The pure report value `generateReport` assembles (`now` is the
`new Date().toISOString()` timestamp). -/
def buildReport (now baseUrl : String) (st : CrawlState) : Report :=
  { baseUrl := baseUrl
    dateGenerated := now
    issues := []
    crawlStats :=
      { totalUrlsCrawled := st.visitedUrls.length
        totalStaticResources := st.staticResources.length
        brokenLinks := st.brokenLinks.length
        totalInternalLinks := ((st.internalLinks.map (·.2)).flatten).length
        totalExternalLinks := ((st.externalLinks.map (·.2)).flatten).length
        urlsWithoutTitle := st.visitedUrls.filter
          (fun u => (aGet st.pagesTitles u).isNone)
        urlsWithoutDescription := st.visitedUrls.filter
          (fun u => (aGet st.pagesDescriptions u).isNone)
        urlsWithoutH1 := st.visitedUrls.filter
          (fun u => (aGet st.pagesH1 u).isNone)
        urlsWithInvalidTitleLength := st.pagesTitlesWarnings
        urlsWithInvalidDescriptionLength := st.pagesDescriptionsWarnings }
    sitemapStats :=
      { totalUrlsInSitemap := st.sitemapUrls.length
        urlsNotInSitemap := st.urlsNotInSitemap
        urlsInSitemapButNotCrawled := st.urlsInSitemapButNotCrawled }
    brokenLinks := st.brokenLinks
    pageMeta := st.visitedUrls.map (pageRecordFor st)
    staticResources := st.staticResources.map
      (fun u => { url := u, type := staticType u, status := statusField st u }) }

/-- Observable side effects of the report/render phase. -/
inductive Effect where
  | fsWrite (path content : String)
  | netGet (url : String)
deriving DecidableEq

/-- `generateReport()`: assembles the report, serializes it to
`seo-report.json` (via the JSON serializer collaborator `jsonRender`) and
renders `seo-report.html` (via the HTML renderer collaborator `htmlRender`,
pure presentation, out of scope).  Returns the report value and the effect
trace. -/
def generateReport (jsonRender htmlRender : Report → String)
    (now baseUrl : String) (st : CrawlState) : Report × List Effect :=
  let report := buildReport now baseUrl st
  (report,
   [Effect.fsWrite "seo-report.json" (jsonRender report),
    Effect.fsWrite "seo-report.html" (htmlRender report)])

/-- The issue-collection pass at the top of `analyze()`: iterates the
recorded titles/descriptions/H1s (which, by construction of
`extractMetadata`, only ever contain truthy values), then the broken-link
count, then the sitemap set-difference sizes. -/
def collectIssues (st : CrawlState) : List String :=
  let issues := st.pagesTitles.foldl
    (fun acc p =>
      if p.2 = "" then acc ++ ["Brak tytułu na stronie: " ++ p.1]
      else if p.2.length < 30 ∨ 60 < p.2.length then
        acc ++ ["Nieprawidłowa długość tytułu (" ++ toString p.2.length ++
                " znaków) na stronie: " ++ p.1]
      else acc) []
  let issues := st.pagesDescriptions.foldl
    (fun acc p =>
      if p.2 = "" then acc ++ ["Brak meta opisu na stronie: " ++ p.1]
      else if p.2.length < 120 ∨ 160 < p.2.length then
        acc ++ ["Nieprawidłowa długość meta opisu (" ++ toString p.2.length ++
                " znaków) na stronie: " ++ p.1]
      else acc) issues
  let issues := st.pagesH1.foldl
    (fun acc p =>
      if p.2 = "" then acc ++ ["Brak nagłówka H1 na stronie: " ++ p.1]
      else acc) issues
  let issues :=
    if 0 < st.brokenLinks.length then
      issues ++ ["Znaleziono " ++ toString st.brokenLinks.length ++
                 " uszkodzonych linków"]
    else issues
  let issues :=
    if 0 < st.urlsNotInSitemap.length then
      issues ++ [toString st.urlsNotInSitemap.length ++ " stron nie jest w sitemap"]
    else issues
  if 0 < st.urlsInSitemapButNotCrawled.length then
    issues ++ [toString st.urlsInSitemapButNotCrawled.length ++
               " stron z sitemap nie zostało scrawlowanych"]
  else issues

/-- `analyze(maxDepth)`: crawl, collect issues (note: BEFORE the sitemap is
fetched and compared), fetch+parse the sitemap (tolerating absence and
parse errors), run the comparison, generate the report and attach the
collected issues.  `none` propagates diverging sitemap-index recursion
(see `parseSitemapFuel`).  The PDF rendering step is an external
collaborator (headless browser) and is not modelled. -/
def analyze (w : World) (jsonRender htmlRender : Report → String)
    (now : String) (fuel : Nat) (baseUrl startUrl : String) (maxDepth : Nat) :
    Option (Report × List Effect) :=
  let st := crawl w baseUrl startUrl 0 maxDepth initState
  let issues := collectIssues st
  let st2 :=
    match w.sitemap (baseUrl ++ "/sitemap.xml") with
    | none => some st
    | some doc =>
      (parseSitemapFuel w fuel doc st.sitemapUrls).map
        (fun r => { st with sitemapUrls := r.1 })
  match st2 with
  | none => none
  | some st2 =>
    let st3 := compareCrawlWithSitemap st2
    let r := generateReport jsonRender htmlRender now baseUrl st3
    some ({ r.1 with issues := issues }, r.2)

/-- The page the crawler actually processes at a URL: present exactly when
the fetch resolves with status 200 and a non-empty body. -/
def pageAt (w : World) (u : String) : Option Page :=
  match w.fetch u with
  | .success s (some p) => if s = 200 then some p else none
  | _ => none

/-- The deduplicated normalized link set `extractLinks` computes on the
page at `u` (empty when the page is not processed). -/
def linksOf (w : World) (baseUrl u : String) : List String :=
  match pageAt w u with
  | some p => (extractLinksLoop w baseUrl u p.hrefs [] [] []).1
  | none => []

/-- One crawl edge: `l` is among the links extracted from the page at `v`
and passes the internal test, so `crawl` recurses into it. -/
def CrawlEdge (w : World) (baseUrl v l : String) : Prop :=
  l ∈ linksOf w baseUrl v ∧ isInternalUrl baseUrl l = true

/-- `ReachN w baseUrl src n u`: `u` is reachable from `src` along at most
`n` crawl edges (so the shortest link distance of `u` from `src` is ≤ `n`). -/
inductive ReachN (w : World) (baseUrl src : String) : Nat → String → Prop where
  | refl (n : Nat) : ReachN w baseUrl src n src
  | step (n : Nat) (v u : String) :
      ReachN w baseUrl src n v → CrawlEdge w baseUrl v u →
      ReachN w baseUrl src (n + 1) u

/-- The at-most-once-fetch invariant: every URL occurs in the fetch trace
at most once, and only if it is already in the visited set. -/
def FetchInv (st : CrawlState) : Prop :=
  ∀ u, st.fetchLog.count u ≤ if u ∈ st.visitedUrls then 1 else 0

/-- No static-extension URL is ever visited or fetched. -/
def NoStaticFetched (st : CrawlState) : Prop :=
  (∀ u, u ∈ st.visitedUrls → isStaticUrl u = false) ∧
  (∀ u, u ∈ st.fetchLog → isStaticUrl u = false)

/-- JSON values, as delivered by the JS runtime primitive `JSON.parse`
(modelled as an oracle `String → Option JVal`, `none` = parse throw). -/
inductive JVal where
  | jnull
  | jbool (b : Bool)
  | jnum (n : Int)
  | jstr (s : String)
  | jarr (xs : List JVal)
  | jobj (fields : List (String × JVal))

/-- JS truthiness of a JSON value. -/
def jsTruthy : JVal → Bool
  | .jnull => false
  | .jbool b => b
  | .jnum n => !(n = 0)
  | .jstr s => !(s = "")
  | .jarr _ => true
  | .jobj _ => true

/-- JS property read `v.field` (undefined on non-objects). -/
def getField : JVal → String → Option JVal
  | .jobj fields, k => aGet fields k
  | _, _ => none

/-- The opening and closing brace characters. -/
def lbrace : Char := Char.ofNat 123

/-- See `lbrace`. -/
def rbrace : Char := Char.ofNat 125

/-- `SEOAIOptimizer.cleanAndParseJSON(text)`: strip everything before the
first opening brace and after the last closing brace, then `JSON.parse`
(the runtime parser oracle `jp`); `none` models the function throwing. -/
def cleanAndParseJSON (jp : String → Option JVal) (text : String) : Option JVal :=
  let cs := text.toList
  match List.findIdx? (fun c => c = lbrace) cs with
  | none => none
  | some i =>
    let cleaned := cs.drop i
    match List.findIdx? (fun c => c = rbrace) cleaned.reverse with
    | none => none
    | some j => jp (String.mk (cleaned.take (cleaned.length - j)))

/-- Outcome of the `openai.responses.create` call: the promise rejects, or
resolves with an `output_text` that may be absent. -/
inductive AIResp where
  | err
  | resp (output_text : Option String)

/-- `SEOAIOptimizer.optimizeTitle`: any failure path (rejected call, falsy
`output_text`, JSON parse throw, falsy `optimizedTitle` field) falls back
to the current title. -/
def optimizeTitle (jp : String → Option JVal) (r : AIResp)
    (currentTitle : String) : JVal :=
  match r with
  | .err => .jstr currentTitle
  | .resp none => .jstr currentTitle
  | .resp (some out) =>
    if out = "" then .jstr currentTitle
    else
      match cleanAndParseJSON jp out with
      | none => .jstr currentTitle
      | some parsed =>
        match getField parsed "optimizedTitle" with
        | none => .jstr currentTitle
        | some v => if jsTruthy v then v else .jstr currentTitle

/-- `SEOAIOptimizer.optimizeDescription`, same failure contract as
`optimizeTitle`. -/
def optimizeDescription (jp : String → Option JVal) (r : AIResp)
    (currentDescription : String) : JVal :=
  match r with
  | .err => .jstr currentDescription
  | .resp none => .jstr currentDescription
  | .resp (some out) =>
    if out = "" then .jstr currentDescription
    else
      match cleanAndParseJSON jp out with
      | none => .jstr currentDescription
      | some parsed =>
        match getField parsed "optimizedDescription" with
        | none => .jstr currentDescription
        | some v => if jsTruthy v then v else .jstr currentDescription

/-- `SEOAIOptimizer.generateKeywordSuggestions`: falls back to the current
keyword list on every failure path. -/
def generateKeywordSuggestions (jp : String → Option JVal) (r : AIResp)
    (currentKeywords : List String) : JVal :=
  match r with
  | .err => .jarr (currentKeywords.map .jstr)
  | .resp none => .jarr (currentKeywords.map .jstr)
  | .resp (some out) =>
    if out = "" then .jarr (currentKeywords.map .jstr)
    else
      match cleanAndParseJSON jp out with
      | none => .jarr (currentKeywords.map .jstr)
      | some parsed =>
        match getField parsed "suggestions" with
        | none => .jarr (currentKeywords.map .jstr)
        | some v => if jsTruthy v then v else .jarr (currentKeywords.map .jstr)

/-- "The response carries no parsable JSON": the call rejected, or
`output_text` is absent/empty, or `cleanAndParseJSON` throws on it. -/
def noValidJson (jp : String → Option JVal) : AIResp → Bool
  | .err => true
  | .resp none => true
  | .resp (some s) => (s = "") || (cleanAndParseJSON jp s).isNone

/-- A small site for concrete runs: the start page links to the
document-relative `about.html`; assorted further URLs exercise the broken /
empty / static fetch paths. -/
def demoPage : Page := { hrefs := ["about.html"] }

/-- See `demoPage`. -/
def demoWorld : World :=
  { fetch := fun u =>
      if u = "https://e.test/" then .success 200 (some demoPage)
      else if u = "https://e.test/missing" then .httpError 404
      else if u = "https://e.test/nocontent" then .success 204 none
      else if u = "https://e.test/down" then .netError "ECONNREFUSED"
      else .success 200 (some {}),
    resolve := fun l c =>
      if strStartsWith l "/" then some ("https://e.test" ++ l)
      else some (c ++ l),
    analyzeContent := fun _ _ => none,
    optimizeMeta := fun _ _ _ => none,
    sitemap := fun _ => none }

/-- A one-page site whose single page has an empty title, no description
and no H1, with a sitemap declaring one extra URL — every "missing ..."
and sitemap-mismatch condition of the issues list holds at the end of the
run. -/
def issuesWorld : World :=
  { fetch := fun _ => .success 200 (some {}),
    resolve := fun l _ => some l,
    analyzeContent := fun _ _ => none,
    optimizeMeta := fun _ _ _ => none,
    sitemap := fun u =>
      if u = "https://e.test/sitemap.xml" then
        some (.urlset ["https://e.test/", "https://e.test/extra"])
      else none }

/-- A self-referential sitemap index: the index at
`https://e.test/sitemap.xml` lists itself as its only child. -/
def cyclicDoc : SitemapDoc := .index ["https://e.test/sitemap.xml"]

/-- See `cyclicDoc`. -/
def cyclicWorld : World :=
  { fetch := fun _ => .netError "unused",
    resolve := fun l _ => some l,
    analyzeContent := fun _ _ => none,
    optimizeMeta := fun _ _ _ => none,
    sitemap := fun _ => some cyclicDoc }

/-- A trivial renderer collaborator instance. -/
def emptyRender : Report → String := fun _ => ""

/-- A state in which one visited URL had a transport-level fetch failure
(status-code sentinel 0 recorded), as `crawl` produces for it. -/
def transportState : CrawlState :=
  { initState with
      visitedUrls := ["https://e.test/x"],
      statusCodes := [("https://e.test/x", 0)],
      brokenLinks := [{ url := "https://e.test/x", status := 0, error := some "timeout" }],
      fetchLog := ["https://e.test/x"] }

/-- JS-runtime `JSON.parse` oracle that rejects everything (e.g. the model
of a response whose brace-delimited slice is still invalid JSON). -/
def jpNone : String → Option JVal := fun _ => none

theorem mem_listInsert_self (l : List String) (x : String) :
    x ∈ listInsert l x := by
  unfold listInsert
  split
  · assumption
  · simp

theorem mem_listInsert_of_mem (l : List String) (x y : String) (h : y ∈ l) :
    y ∈ listInsert l x := by
  unfold listInsert
  split
  · exact h
  · exact List.mem_append_left _ h

theorem mem_of_mem_listInsert (l : List String) (x y : String)
    (h : y ∈ listInsert l x) : y ∈ l ∨ y = x := by
  unfold listInsert at h
  split at h
  · exact Or.inl h
  · rcases List.mem_append.mp h with h | h
    · exact Or.inl h
    · exact Or.inr (List.mem_singleton.mp h)

theorem aGet_aSet_self {β : Type} (m : List (String × β)) (k : String) (v : β) :
    aGet (aSet m k v) k = some v := by
  induction m with
  | nil => simp [aSet, aGet]
  | cons p rest ih =>
    by_cases h : p.1 = k
    · simp [aSet, h, aGet]
    · simp [aSet, h, aGet, ih]

theorem foldl_preserve {α : Type} {σ : Type} (P : σ → Prop) (f : σ → α → σ)
    (hstep : ∀ s a, P s → P (f s a)) :
    ∀ (l : List α) (s : σ), P s → P (l.foldl f s) := by
  intro l
  induction l with
  | nil => exact fun s h => h
  | cons a t ih => exact fun s h => ih _ (hstep s a h)

theorem foldl_fixed {α : Type} {σ : Type} (f : σ → α → σ)
    (h : ∀ s a, f s a = s) : ∀ (l : List α) (s : σ), l.foldl f s = s := by
  intro l
  induction l with
  | nil => exact fun s => rfl
  | cons a t ih => intro s; rw [List.foldl_cons, h]; exact ih s

theorem fetchPage_frame (w : World) (url : String) (st : CrawlState) :
    ((fetchPage w url st).2).visitedUrls = st.visitedUrls ∧
    ((fetchPage w url st).2).fetchLog = st.fetchLog ++ [url] ∧
    ((fetchPage w url st).2).staticResources = st.staticResources := by
  unfold fetchPage
  cases w.fetch url <;> simp

theorem analyzePage_frame (w : World) (url : String) (page : Page)
    (st : CrawlState) :
    (analyzePage w url page st).visitedUrls = st.visitedUrls ∧
    (analyzePage w url page st).fetchLog = st.fetchLog ∧
    (analyzePage w url page st).staticResources = st.staticResources := by
  unfold analyzePage
  cases w.analyzeContent url page <;> simp

theorem metaTitleStep_frame (url title : String) (st : CrawlState) :
    (metaTitleStep url title st).visitedUrls = st.visitedUrls ∧
    (metaTitleStep url title st).fetchLog = st.fetchLog ∧
    (metaTitleStep url title st).staticResources = st.staticResources := by
  unfold metaTitleStep
  refine ⟨?_, ?_, ?_⟩ <;> (dsimp only; repeat' split) <;> rfl

theorem metaDescriptionStep_frame (url : String) (odesc : Option String)
    (st : CrawlState) :
    (metaDescriptionStep url odesc st).visitedUrls = st.visitedUrls ∧
    (metaDescriptionStep url odesc st).fetchLog = st.fetchLog ∧
    (metaDescriptionStep url odesc st).staticResources = st.staticResources := by
  unfold metaDescriptionStep
  refine ⟨?_, ?_, ?_⟩ <;> (dsimp only; repeat' split) <;> rfl

theorem metaTagsStep_frame (url : String) (page : Page) (st : CrawlState) :
    (metaTagsStep url page st).visitedUrls = st.visitedUrls ∧
    (metaTagsStep url page st).fetchLog = st.fetchLog ∧
    (metaTagsStep url page st).staticResources = st.staticResources :=
  ⟨rfl, rfl, rfl⟩

theorem metaH1Step_frame (url h1 : String) (st : CrawlState) :
    (metaH1Step url h1 st).visitedUrls = st.visitedUrls ∧
    (metaH1Step url h1 st).fetchLog = st.fetchLog ∧
    (metaH1Step url h1 st).staticResources = st.staticResources := by
  unfold metaH1Step
  refine ⟨?_, ?_, ?_⟩ <;> (dsimp only; repeat' split) <;> rfl

theorem metaAiStep_frame (w : World) (url title : String)
    (odesc : Option String) (st : CrawlState) :
    (metaAiStep w url title odesc st).visitedUrls = st.visitedUrls ∧
    (metaAiStep w url title odesc st).fetchLog = st.fetchLog ∧
    (metaAiStep w url title odesc st).staticResources = st.staticResources := by
  unfold metaAiStep
  refine ⟨?_, ?_, ?_⟩ <;> (dsimp only; repeat' split) <;> rfl

theorem extractMetadata_frame (w : World) (url : String) (page : Page)
    (st : CrawlState) :
    (extractMetadata w url page st).visitedUrls = st.visitedUrls ∧
    (extractMetadata w url page st).fetchLog = st.fetchLog ∧
    (extractMetadata w url page st).staticResources = st.staticResources := by
  unfold extractMetadata
  refine ⟨?_, ?_, ?_⟩
  · rw [(metaAiStep_frame _ _ _ _ _).1, (metaH1Step_frame _ _ _).1,
        (metaTagsStep_frame _ _ _).1, (metaDescriptionStep_frame _ _ _).1,
        (metaTitleStep_frame _ _ _).1]
  · rw [(metaAiStep_frame _ _ _ _ _).2.1, (metaH1Step_frame _ _ _).2.1,
        (metaTagsStep_frame _ _ _).2.1, (metaDescriptionStep_frame _ _ _).2.1,
        (metaTitleStep_frame _ _ _).2.1]
  · rw [(metaAiStep_frame _ _ _ _ _).2.2, (metaH1Step_frame _ _ _).2.2,
        (metaTagsStep_frame _ _ _).2.2, (metaDescriptionStep_frame _ _ _).2.2,
        (metaTitleStep_frame _ _ _).2.2]

theorem extractLinks_frame (w : World) (baseUrl currentUrl : String)
    (page : Page) (st : CrawlState) :
    ((extractLinks w baseUrl currentUrl page st).2).visitedUrls = st.visitedUrls ∧
    ((extractLinks w baseUrl currentUrl page st).2).fetchLog = st.fetchLog ∧
    ((extractLinks w baseUrl currentUrl page st).2).staticResources = st.staticResources :=
  ⟨rfl, rfl, rfl⟩

theorem crawlGas_zero (w : World) (baseUrl url : String) (depth maxDepth : Nat)
    (st : CrawlState) : crawlGas w baseUrl 0 url depth maxDepth st = st := rfl

/-- Fidelity of the gas-indexed embedding: `crawl` satisfies, definitionally,
exactly the recurrence of the JavaScript source (`crawlBody`). -/
theorem crawl_unfold (w : World) (baseUrl url : String) (depth maxDepth : Nat)
    (st : CrawlState) :
    crawl w baseUrl url depth maxDepth st = crawlBody w baseUrl url depth maxDepth st := by
  rcases Nat.lt_or_ge maxDepth depth with h | h
  · have h0 : maxDepth + 1 - depth = 0 := by omega
    unfold crawlBody
    rw [if_pos h]
    unfold crawl
    rw [h0, crawlGas_zero]
  · have h1 : maxDepth + 1 - depth = (maxDepth - depth) + 1 := by omega
    have h2 : maxDepth + 1 - (depth + 1) = maxDepth - depth := by omega
    unfold crawl crawlBody
    rw [h1]
    simp only [crawlGas]
    simp only [crawl, h2]

theorem FetchInv_congr {st st' : CrawlState}
    (hv : st'.visitedUrls = st.visitedUrls) (hl : st'.fetchLog = st.fetchLog)
    (h : FetchInv st) : FetchInv st' := by
  intro u
  rw [hv, hl]
  exact h u

theorem NoStaticFetched_congr {st st' : CrawlState}
    (hv : st'.visitedUrls = st.visitedUrls) (hl : st'.fetchLog = st.fetchLog)
    (h : NoStaticFetched st) : NoStaticFetched st' := by
  constructor
  · intro u hu
    exact h.1 u (hv ▸ hu)
  · intro u hu
    exact h.2 u (hl ▸ hu)

theorem FetchInv_visit (w : World) (url : String) (st : CrawlState)
    (h : FetchInv st) (hnv : url ∉ st.visitedUrls) :
    FetchInv ((fetchPage w url { st with visitedUrls := st.visitedUrls ++ [url] }).2) := by
  have hf := fetchPage_frame w url { st with visitedUrls := st.visitedUrls ++ [url] }
  have hv : ((fetchPage w url { st with visitedUrls := st.visitedUrls ++ [url] }).2).visitedUrls
      = st.visitedUrls ++ [url] := hf.1
  have hl : ((fetchPage w url { st with visitedUrls := st.visitedUrls ++ [url] }).2).fetchLog
      = st.fetchLog ++ [url] := hf.2.1
  intro u
  rw [hv, hl, List.count_append, List.count_singleton']
  by_cases hu : u = url
  · subst hu
    have h0 : st.fetchLog.count u = 0 := by
      have hb := h u
      rw [if_neg hnv] at hb
      omega
    have hm : u ∈ st.visitedUrls ++ [u] := List.mem_append_right _ (by simp)
    rw [if_pos rfl, if_pos hm, h0]
  · have hne : ¬(url = u) := fun e => hu e.symm
    rw [if_neg hne]
    by_cases hv2 : u ∈ st.visitedUrls
    · have hb := h u
      rw [if_pos hv2] at hb
      rw [if_pos (List.mem_append_left _ hv2)]
      omega
    · have hnm : u ∉ st.visitedUrls ++ [url] := by
        intro hm
        rcases List.mem_append.mp hm with hm | hm
        · exact hv2 hm
        · exact hu (List.mem_singleton.mp hm)
      have hb := h u
      rw [if_neg hv2] at hb
      rw [if_neg hnm]
      omega

theorem NoStaticFetched_visit (w : World) (url : String) (st : CrawlState)
    (h : NoStaticFetched st) (hs : isStaticUrl url = false) :
    NoStaticFetched ((fetchPage w url { st with visitedUrls := st.visitedUrls ++ [url] }).2) := by
  have hf := fetchPage_frame w url { st with visitedUrls := st.visitedUrls ++ [url] }
  have hv : ((fetchPage w url { st with visitedUrls := st.visitedUrls ++ [url] }).2).visitedUrls
      = st.visitedUrls ++ [url] := hf.1
  have hl : ((fetchPage w url { st with visitedUrls := st.visitedUrls ++ [url] }).2).fetchLog
      = st.fetchLog ++ [url] := hf.2.1
  constructor
  · intro u hu
    rw [hv] at hu
    rcases List.mem_append.mp hu with hu | hu
    · exact h.1 u hu
    · rw [List.mem_singleton.mp hu]
      exact hs
  · intro u hu
    rw [hl] at hu
    rcases List.mem_append.mp hu with hu | hu
    · exact h.2 u hu
    · rw [List.mem_singleton.mp hu]
      exact hs

theorem crawlGas_fetchInv (w : World) (baseUrl : String) :
    ∀ (gas : Nat) (url : String) (depth maxDepth : Nat) (st : CrawlState),
      FetchInv st → FetchInv (crawlGas w baseUrl gas url depth maxDepth st) := by
  intro gas
  induction gas with
  | zero => exact fun url depth maxDepth st h => h
  | succ gas ih =>
    intro url depth maxDepth st h
    simp only [crawlGas]
    split
    · exact h
    split
    · exact h
    rename_i hdep hnv
    unfold shouldCrawl
    by_cases hs : isStaticUrl url
    · rw [if_pos hs]
      exact FetchInv_congr rfl rfl h
    · rw [if_neg hs]
      dsimp only
      rcases hfp : fetchPage w url { st with visitedUrls := st.visitedUrls ++ [url] }
        with ⟨⟨body, status⟩, st2⟩
      have h2 : FetchInv st2 := by
        have hb := FetchInv_visit w url st h hnv
        rw [hfp] at hb
        exact hb
      rcases body with _ | page
      · exact h2
      · dsimp only
        split
        · have h5 : FetchInv ((extractLinks w baseUrl url page
              (extractMetadata w url page (analyzePage w url page st2))).2) :=
            FetchInv_congr (extractLinks_frame ..).1 (extractLinks_frame ..).2.1
              (FetchInv_congr (extractMetadata_frame ..).1 (extractMetadata_frame ..).2.1
                (FetchInv_congr (analyzePage_frame ..).1 (analyzePage_frame ..).2.1 h2))
          refine foldl_preserve FetchInv _ ?_ _ _ h5
          intro s a hP
          dsimp only
          split
          · exact ih a (depth + 1) maxDepth s hP
          · exact hP
        · exact h2

theorem crawlGas_noStatic (w : World) (baseUrl : String) :
    ∀ (gas : Nat) (url : String) (depth maxDepth : Nat) (st : CrawlState),
      NoStaticFetched st → NoStaticFetched (crawlGas w baseUrl gas url depth maxDepth st) := by
  intro gas
  induction gas with
  | zero => exact fun url depth maxDepth st h => h
  | succ gas ih =>
    intro url depth maxDepth st h
    simp only [crawlGas]
    split
    · exact h
    split
    · exact h
    rename_i hdep hnv
    unfold shouldCrawl
    by_cases hs : isStaticUrl url
    · rw [if_pos hs]
      exact NoStaticFetched_congr rfl rfl h
    · rw [if_neg hs]
      dsimp only
      rcases hfp : fetchPage w url { st with visitedUrls := st.visitedUrls ++ [url] }
        with ⟨⟨body, status⟩, st2⟩
      have h2 : NoStaticFetched st2 := by
        have hb := NoStaticFetched_visit w url st h (by simpa using hs)
        rw [hfp] at hb
        exact hb
      rcases body with _ | page
      · exact h2
      · dsimp only
        split
        · have h5 : NoStaticFetched ((extractLinks w baseUrl url page
              (extractMetadata w url page (analyzePage w url page st2))).2) :=
            NoStaticFetched_congr (extractLinks_frame ..).1 (extractLinks_frame ..).2.1
              (NoStaticFetched_congr (extractMetadata_frame ..).1 (extractMetadata_frame ..).2.1
                (NoStaticFetched_congr (analyzePage_frame ..).1 (analyzePage_frame ..).2.1 h2))
          refine foldl_preserve NoStaticFetched _ ?_ _ _ h5
          intro s a hP
          dsimp only
          split
          · exact ih a (depth + 1) maxDepth s hP
          · exact hP
        · exact h2

theorem ReachN_mono (w : World) (baseUrl src : String) :
    ∀ (n : Nat) (u : String), ReachN w baseUrl src n u →
      ReachN w baseUrl src (n + 1) u := by
  intro n u h
  induction h with
  | refl n => exact .refl (n + 1)
  | step n v u _ he ih => exact .step (n + 1) v u ih he

theorem ReachN_prepend (w : World) (baseUrl s l : String)
    (he : CrawlEdge w baseUrl s l) :
    ∀ (k : Nat) (x : String), ReachN w baseUrl l k x →
      ReachN w baseUrl s (k + 1) x := by
  intro k x h
  induction h with
  | refl n => exact .step n s l (.refl n) he
  | step n v u _ he2 ih => exact .step (n + 1) v u ih he2

theorem crawlGas_reach (w : World) (baseUrl : String) :
    ∀ (gas : Nat) (url : String) (depth maxDepth : Nat) (st : CrawlState)
      (x : String),
      x ∈ (crawlGas w baseUrl (gas + 1) url depth maxDepth st).visitedUrls →
      x ∈ st.visitedUrls ∨ ReachN w baseUrl url gas x := by
  intro gas
  induction gas with
  | zero =>
    intro url depth maxDepth st x hx
    simp only [crawlGas] at hx
    split at hx
    · exact Or.inl hx
    split at hx
    · exact Or.inl hx
    unfold shouldCrawl at hx
    by_cases hs : isStaticUrl url
    · rw [if_pos hs] at hx
      exact Or.inl hx
    · rw [if_neg hs] at hx
      try dsimp only at hx
      rcases hfet : w.fetch url with ⟨s, b⟩ | ⟨s⟩ | ⟨msg⟩
      · simp only [fetchPage, hfet] at hx
        rcases b with _ | page
        · try dsimp only at hx
          rcases List.mem_append.mp hx with hx | hx
          · exact Or.inl hx
          · exact Or.inr (List.mem_singleton.mp hx ▸ ReachN.refl 0)
        · try dsimp only at hx
          split at hx
          · rw [foldl_fixed _ (by
              intro s' a
              split <;> rfl)] at hx
            have hvis : ((extractLinks w baseUrl url page
                (extractMetadata w url page (analyzePage w url page
                  { visitedUrls := st.visitedUrls ++ [url],
                    staticResources := st.staticResources,
                    brokenLinks := st.brokenLinks,
                    internalLinks := st.internalLinks,
                    externalLinks := st.externalLinks,
                    pagesTitles := st.pagesTitles,
                    pagesDescriptions := st.pagesDescriptions,
                    pagesH1 := st.pagesH1,
                    sitemapUrls := st.sitemapUrls,
                    urlsNotInSitemap := st.urlsNotInSitemap,
                    urlsInSitemapButNotCrawled := st.urlsInSitemapButNotCrawled,
                    statusCodes := aSet st.statusCodes url s,
                    pagesTitlesWarnings := st.pagesTitlesWarnings,
                    pagesDescriptionsWarnings := st.pagesDescriptionsWarnings,
                    pagesMetaTags := st.pagesMetaTags,
                    keywords := st.keywords,
                    fetchLog := st.fetchLog ++ [url] }))).2).visitedUrls
                = st.visitedUrls ++ [url] := by
              rw [(extractLinks_frame ..).1, (extractMetadata_frame ..).1,
                  (analyzePage_frame ..).1]
            rw [hvis] at hx
            rcases List.mem_append.mp hx with hx | hx
            · exact Or.inl hx
            · exact Or.inr (List.mem_singleton.mp hx ▸ ReachN.refl 0)
          · rcases List.mem_append.mp hx with hx | hx
            · exact Or.inl hx
            · exact Or.inr (List.mem_singleton.mp hx ▸ ReachN.refl 0)
      · simp only [fetchPage, hfet] at hx
        try dsimp only at hx
        rcases List.mem_append.mp hx with hx | hx
        · exact Or.inl hx
        · exact Or.inr (List.mem_singleton.mp hx ▸ ReachN.refl 0)
      · simp only [fetchPage, hfet] at hx
        try dsimp only at hx
        rcases List.mem_append.mp hx with hx | hx
        · exact Or.inl hx
        · exact Or.inr (List.mem_singleton.mp hx ▸ ReachN.refl 0)
  | succ gas ih =>
    intro url depth maxDepth st x hx
    rw [crawlGas] at hx
    split at hx
    · exact Or.inl hx
    split at hx
    · exact Or.inl hx
    unfold shouldCrawl at hx
    by_cases hs : isStaticUrl url
    · rw [if_pos hs] at hx
      exact Or.inl hx
    · rw [if_neg hs] at hx
      try dsimp only at hx
      rcases hfet : w.fetch url with ⟨s, b⟩ | ⟨s⟩ | ⟨msg⟩
      · simp only [fetchPage, hfet] at hx
        rcases b with _ | page
        · try dsimp only at hx
          rcases List.mem_append.mp hx with hx | hx
          · exact Or.inl hx
          · exact Or.inr (List.mem_singleton.mp hx ▸ ReachN.refl (gas + 1))
        · try dsimp only at hx
          split at hx
          · rename_i h200
            have hfold : ∀ (ls : List String) (s0 : CrawlState) (y : String),
                y ∈ (ls.foldl
                  (fun s' l =>
                    if isInternalUrl baseUrl l = true then
                      crawlGas w baseUrl (gas + 1) l (depth + 1) maxDepth s'
                    else s') s0).visitedUrls →
                y ∈ s0.visitedUrls ∨
                  ∃ l, l ∈ ls ∧ isInternalUrl baseUrl l = true ∧
                    ReachN w baseUrl l gas y := by
              intro ls
              induction ls with
              | nil => exact fun s0 y hy => Or.inl hy
              | cons a t iht =>
                intro s0 y hy
                rw [List.foldl_cons] at hy
                rcases iht _ y hy with hy | ⟨l, hl, hint, hr⟩
                · by_cases hin : isInternalUrl baseUrl a = true
                  · rw [if_pos hin] at hy
                    rcases ih a (depth + 1) maxDepth s0 y hy with hy | hr
                    · exact Or.inl hy
                    · exact Or.inr ⟨a, List.mem_cons_self a t, hin, hr⟩
                  · rw [if_neg hin] at hy
                    exact Or.inl hy
                · exact Or.inr ⟨l, List.mem_cons_of_mem a hl, hint, hr⟩
            rcases hfold _ _ x hx with hx | ⟨l, hl, hint, hr⟩
            · have hvis : ((extractLinks w baseUrl url page
                  (extractMetadata w url page (analyzePage w url page
                    { visitedUrls := st.visitedUrls ++ [url],
                      staticResources := st.staticResources,
                      brokenLinks := st.brokenLinks,
                      internalLinks := st.internalLinks,
                      externalLinks := st.externalLinks,
                      pagesTitles := st.pagesTitles,
                      pagesDescriptions := st.pagesDescriptions,
                      pagesH1 := st.pagesH1,
                      sitemapUrls := st.sitemapUrls,
                      urlsNotInSitemap := st.urlsNotInSitemap,
                      urlsInSitemapButNotCrawled := st.urlsInSitemapButNotCrawled,
                      statusCodes := aSet st.statusCodes url s,
                      pagesTitlesWarnings := st.pagesTitlesWarnings,
                      pagesDescriptionsWarnings := st.pagesDescriptionsWarnings,
                      pagesMetaTags := st.pagesMetaTags,
                      keywords := st.keywords,
                      fetchLog := st.fetchLog ++ [url] }))).2).visitedUrls
                  = st.visitedUrls ++ [url] := by
                rw [(extractLinks_frame ..).1, (extractMetadata_frame ..).1,
                    (analyzePage_frame ..).1]
              rw [hvis] at hx
              rcases List.mem_append.mp hx with hx | hx
              · exact Or.inl hx
              · exact Or.inr (List.mem_singleton.mp hx ▸ ReachN.refl (gas + 1))
            · have hedge : CrawlEdge w baseUrl url l := by
                constructor
                · have hlinks : linksOf w baseUrl url =
                      (extractLinksLoop w baseUrl url page.hrefs [] [] []).1 := by
                    subst h200
                    unfold linksOf pageAt
                    rw [hfet]
                    simp
                  rw [hlinks]
                  exact hl
                · exact hint
              exact Or.inr (ReachN_prepend w baseUrl url l hedge gas x hr)
          · rcases List.mem_append.mp hx with hx | hx
            · exact Or.inl hx
            · exact Or.inr (List.mem_singleton.mp hx ▸ ReachN.refl (gas + 1))
      · simp only [fetchPage, hfet] at hx
        try dsimp only at hx
        rcases List.mem_append.mp hx with hx | hx
        · exact Or.inl hx
        · exact Or.inr (List.mem_singleton.mp hx ▸ ReachN.refl (gas + 1))
      · simp only [fetchPage, hfet] at hx
        try dsimp only at hx
        rcases List.mem_append.mp hx with hx | hx
        · exact Or.inl hx
        · exact Or.inr (List.mem_singleton.mp hx ▸ ReachN.refl (gas + 1))

theorem crawl_visited_returns (w : World) (baseUrl url : String)
    (depth maxDepth : Nat) (st : CrawlState) (h : url ∈ st.visitedUrls) :
    crawl w baseUrl url depth maxDepth st = st := by
  unfold crawl
  cases hg : maxDepth + 1 - depth with
  | zero => rfl
  | succ k =>
    simp only [crawlGas, h]
    split
    · rfl
    · rfl

theorem FetchInv_init : FetchInv initState := by
  intro u
  have h0 : (initState.fetchLog).count u = 0 := by simp [initState]
  rw [h0]
  exact Nat.zero_le _

theorem NoStaticFetched_init : NoStaticFetched initState := by
  constructor <;> intro u hu <;> simp [initState] at hu

/-- Claim C1 (at-most-once visitation): a URL already in the visited set is
returned from immediately with the state unchanged (hence no fetch); and in
any run from the initial state, every URL occurs in the fetch trace at most
once, and only after it has been added to the visited set (the fetch trace
is contained in the visited set, which is exactly the
"visited before fetch begins" discipline). -/
theorem crawl_at_most_once :
    (∀ (w : World) (baseUrl url : String) (depth maxDepth : Nat) (st : CrawlState),
       url ∈ st.visitedUrls → crawl w baseUrl url depth maxDepth st = st) ∧
    (∀ (w : World) (baseUrl startUrl : String) (maxDepth : Nat) (u : String),
       (crawl w baseUrl startUrl 0 maxDepth initState).fetchLog.count u ≤ 1 ∧
       (u ∈ (crawl w baseUrl startUrl 0 maxDepth initState).fetchLog →
        u ∈ (crawl w baseUrl startUrl 0 maxDepth initState).visitedUrls)) := by
  constructor
  · exact crawl_visited_returns
  · intro w baseUrl startUrl maxDepth u
    have hinv : FetchInv (crawl w baseUrl startUrl 0 maxDepth initState) :=
      crawlGas_fetchInv w baseUrl (maxDepth + 1 - 0) startUrl 0 maxDepth initState
        FetchInv_init
    constructor
    · refine Nat.le_trans (hinv u) ?_
      split <;> omega
    · intro hu
      have hpos : 0 < (crawl w baseUrl startUrl 0 maxDepth initState).fetchLog.count u :=
        List.count_pos_iff.mpr hu
      have hb := hinv u
      by_contra hnv
      rw [if_neg hnv] at hb
      omega

/-- Witness for C1 at concrete inputs: a state already containing the URL is
returned unchanged, and in the demo run the start URL is fetched exactly
once and is in the visited set. -/
theorem crawl_at_most_once_witness :
    crawl demoWorld "https://e.test" "https://e.test/" 0 3
      { initState with visitedUrls := ["https://e.test/"] } =
      { initState with visitedUrls := ["https://e.test/"] } ∧
    (crawl demoWorld "https://e.test" "https://e.test/" 0 3 initState).fetchLog.count
      "https://e.test/" ≤ 1 ∧
    "https://e.test/" ∈ (crawl demoWorld "https://e.test" "https://e.test/" 0 3
      initState).visitedUrls := by
  refine ⟨?_, ?_, ?_⟩
  · exact crawl_at_most_once.1 demoWorld "https://e.test" "https://e.test/" 0 3
      { initState with visitedUrls := ["https://e.test/"] } (by decide)
  · exact (crawl_at_most_once.2 demoWorld "https://e.test" "https://e.test/" 3
      "https://e.test/").1
  · exact (crawl_at_most_once.2 demoWorld "https://e.test" "https://e.test/" 3
      "https://e.test/").2 (by decide)

/-- Claim C3 (depth bound respected): `crawl` with `depth > maxDepth`
returns immediately with the state unchanged (no visited-set insertion, no
fetch); and in any run from the initial state every visited URL is
reachable from the start URL along at most `maxDepth` crawl edges, so no
URL whose shortest link distance exceeds `maxDepth` is visited. -/
theorem crawl_depth_bound :
    (∀ (w : World) (baseUrl url : String) (depth maxDepth : Nat) (st : CrawlState),
       maxDepth < depth → crawl w baseUrl url depth maxDepth st = st) ∧
    (∀ (w : World) (baseUrl startUrl : String) (maxDepth : Nat) (x : String),
       x ∈ (crawl w baseUrl startUrl 0 maxDepth initState).visitedUrls →
       ReachN w baseUrl startUrl maxDepth x) := by
  constructor
  · intro w baseUrl url depth maxDepth st h
    unfold crawl
    have h0 : maxDepth + 1 - depth = 0 := by omega
    rw [h0]
    rfl
  · intro w baseUrl startUrl maxDepth x hx
    unfold crawl at hx
    rw [Nat.sub_zero] at hx
    rcases crawlGas_reach w baseUrl maxDepth startUrl 0 maxDepth initState x hx
      with hx | hr
    · simp [initState] at hx
    · exact hr

/-- Witness for C3 at concrete inputs: a depth-exceeded invocation returns
the state unchanged, and the about page visited in the demo run is reachable
within the depth bound. -/
theorem crawl_depth_bound_witness :
    crawl demoWorld "https://e.test" "https://e.test/about.html" 1 0 initState =
      initState ∧
    ReachN demoWorld "https://e.test" "https://e.test/" 3 "https://e.test/about.html" := by
  constructor
  · exact crawl_depth_bound.1 demoWorld "https://e.test" "https://e.test/about.html"
      1 0 initState (by decide)
  · exact crawl_depth_bound.2 demoWorld "https://e.test" "https://e.test/" 3
      "https://e.test/about.html" (by decide)

/-- Claim C4 counterexample: (i) `crawl` invoked on the static URL
`https://e.test/logo.png` with `depth > maxDepth` records nothing — the URL
does not appear in `staticResources`, contradicting "always appears in
`staticResources` whenever `crawl` is invoked on it"; (ii) the URL
`https://e.test/a.png?v=1`, whose *path* ends in `.png`, is fetched and
visited and never recorded as static, because `shouldCrawl` tests the whole
URL string (which ends in `?v=1`), not the path. -/
theorem static_exclusion_cex :
    (crawl demoWorld "https://e.test" "https://e.test/logo.png" 1 0 initState).staticResources
      = [] ∧
    "https://e.test/a.png?v=1" ∈
      (crawl demoWorld "https://e.test" "https://e.test/a.png?v=1" 0 5 initState).visitedUrls ∧
    "https://e.test/a.png?v=1" ∈
      (crawl demoWorld "https://e.test" "https://e.test/a.png?v=1" 0 5 initState).fetchLog ∧
    (crawl demoWorld "https://e.test" "https://e.test/a.png?v=1" 0 5 initState).staticResources
      = [] := by
  refine ⟨?_, ?_, ?_, ?_⟩ <;> decide

/-- Claim C4 as amended: for every URL whose full URL string ends
(case-insensitively) with one of the fixed static extensions, `crawl`
invoked on it with `depth ≤ maxDepth` and the URL not yet visited adds it
to `staticResources` and changes nothing else; and in any run from the
initial state such a URL is never added to the visited set and never
fetched. -/
theorem static_exclusion_amended :
    (∀ (w : World) (baseUrl url : String) (depth maxDepth : Nat) (st : CrawlState),
       isStaticUrl url = true → depth ≤ maxDepth → url ∉ st.visitedUrls →
       crawl w baseUrl url depth maxDepth st =
         { st with staticResources := listInsert st.staticResources url } ∧
       url ∈ (crawl w baseUrl url depth maxDepth st).staticResources) ∧
    (∀ (w : World) (baseUrl startUrl : String) (maxDepth : Nat) (u : String),
       isStaticUrl u = true →
       u ∉ (crawl w baseUrl startUrl 0 maxDepth initState).visitedUrls ∧
       u ∉ (crawl w baseUrl startUrl 0 maxDepth initState).fetchLog) := by
  constructor
  · intro w baseUrl url depth maxDepth st hstat hdep hnv
    have heq : crawl w baseUrl url depth maxDepth st =
        { st with staticResources := listInsert st.staticResources url } := by
      unfold crawl
      have hg : maxDepth + 1 - depth = (maxDepth - depth) + 1 := by omega
      rw [hg]
      simp only [crawlGas]
      rw [if_neg (by omega : ¬ maxDepth < depth), if_neg hnv]
      simp only [shouldCrawl, hstat]
      rfl
    refine ⟨heq, ?_⟩
    rw [heq]
    exact mem_listInsert_self st.staticResources url
  · intro w baseUrl startUrl maxDepth u hstat
    have hns : NoStaticFetched (crawl w baseUrl startUrl 0 maxDepth initState) :=
      crawlGas_noStatic w baseUrl (maxDepth + 1 - 0) startUrl 0 maxDepth initState
        NoStaticFetched_init
    constructor
    · intro hmem
      rw [hns.1 u hmem] at hstat
      cases hstat
    · intro hmem
      rw [hns.2 u hmem] at hstat
      cases hstat

/-- Witness for the amended C4 at concrete inputs. -/
theorem static_exclusion_amended_witness :
    crawl demoWorld "https://e.test" "https://e.test/logo.png" 0 5 initState =
      { initState with staticResources := ["https://e.test/logo.png"] } ∧
    "https://e.test/logo.png" ∉
      (crawl demoWorld "https://e.test" "https://e.test/" 0 3 initState).visitedUrls := by
  constructor
  · have h := (static_exclusion_amended.1 demoWorld "https://e.test"
      "https://e.test/logo.png" 0 5 initState (by decide) (by decide) (by decide)).1
    rw [h]
    decide
  · exact (static_exclusion_amended.2 demoWorld "https://e.test" "https://e.test/" 3
      "https://e.test/logo.png" (by decide)).1

/-- Claim C5 counterexample: a fetch that resolves with HTTP 204 (a non-200
status) appends no `brokenLinks` entry at all — the claim's "any non-200
status ... exactly one entry is appended to brokenLinks carrying that
status" is false on the code, which records broken links only when the
fetch promise rejects. -/
theorem broken_link_cex :
    (crawl demoWorld "https://e.test" "https://e.test/nocontent" 0 5 initState).brokenLinks
      = [] ∧
    aGet (crawl demoWorld "https://e.test" "https://e.test/nocontent" 0 5
      initState).statusCodes "https://e.test/nocontent" = some 204 ∧
    "https://e.test/nocontent" ∈
      (crawl demoWorld "https://e.test" "https://e.test/nocontent" 0 5 initState).visitedUrls := by
  refine ⟨?_, ?_, ?_⟩ <;> decide

/-- Claim C5 as amended: on a crawl step whose fetch rejects with an HTTP
error response, exactly one `brokenLinks` entry with that status is
appended, the status is recorded, the URL stays visited and nothing else
changes (in particular no metadata or link extraction); a transport-level
rejection is recorded the same way with status 0 plus the error message;
and a fetch that resolves with a non-200 status or an empty body stops
processing with the status recorded and the URL visited but appends no
`brokenLinks` entry. -/
theorem broken_link_recording_amended :
    ∀ (w : World) (baseUrl url : String) (depth maxDepth : Nat) (st : CrawlState),
      depth ≤ maxDepth → url ∉ st.visitedUrls → isStaticUrl url = false →
      (∀ s, w.fetch url = .httpError s →
        crawl w baseUrl url depth maxDepth st =
          { st with visitedUrls := st.visitedUrls ++ [url],
                    fetchLog := st.fetchLog ++ [url],
                    statusCodes := aSet st.statusCodes url s,
                    brokenLinks := st.brokenLinks ++ [{ url := url, status := s }] }) ∧
      (∀ msg, w.fetch url = .netError msg →
        crawl w baseUrl url depth maxDepth st =
          { st with visitedUrls := st.visitedUrls ++ [url],
                    fetchLog := st.fetchLog ++ [url],
                    statusCodes := aSet st.statusCodes url 0,
                    brokenLinks := st.brokenLinks ++
                      [{ url := url, status := 0, error := some msg }] }) ∧
      (∀ s body, w.fetch url = .success s body → (s ≠ 200 ∨ body = none) →
        crawl w baseUrl url depth maxDepth st =
          { st with visitedUrls := st.visitedUrls ++ [url],
                    fetchLog := st.fetchLog ++ [url],
                    statusCodes := aSet st.statusCodes url s }) := by
  intro w baseUrl url depth maxDepth st hdep hnv hstat
  have hg : maxDepth + 1 - depth = (maxDepth - depth) + 1 := by omega
  refine ⟨?_, ?_, ?_⟩
  · intro s hfet
    unfold crawl
    rw [hg]
    simp only [crawlGas]
    rw [if_neg (by omega : ¬ maxDepth < depth), if_neg hnv]
    simp only [shouldCrawl, hstat]
    simp only [fetchPage, hfet]
    rfl
  · intro msg hfet
    unfold crawl
    rw [hg]
    simp only [crawlGas]
    rw [if_neg (by omega : ¬ maxDepth < depth), if_neg hnv]
    simp only [shouldCrawl, hstat]
    simp only [fetchPage, hfet]
    rfl
  · intro s body hfet hbad
    unfold crawl
    rw [hg]
    simp only [crawlGas]
    rw [if_neg (by omega : ¬ maxDepth < depth), if_neg hnv]
    simp only [shouldCrawl, hstat]
    simp only [fetchPage, hfet]
    rcases body with _ | page
    · rfl
    · have hs : s ≠ 200 := by
        rcases hbad with hbad | hbad
        · exact hbad
        · cases hbad
      simp only [if_neg hs]
      rfl

/-- Witness for the amended C5 at concrete inputs (an HTTP 404 rejection
and a transport failure). -/
theorem broken_link_recording_amended_witness :
    crawl demoWorld "https://e.test" "https://e.test/missing" 0 5 initState =
      { initState with
          visitedUrls := ["https://e.test/missing"],
          fetchLog := ["https://e.test/missing"],
          statusCodes := [("https://e.test/missing", 404)],
          brokenLinks := [{ url := "https://e.test/missing", status := 404 }] } ∧
    crawl demoWorld "https://e.test" "https://e.test/down" 0 5 initState =
      { initState with
          visitedUrls := ["https://e.test/down"],
          fetchLog := ["https://e.test/down"],
          statusCodes := [("https://e.test/down", 0)],
          brokenLinks := [{ url := "https://e.test/down", status := 0,
                            error := some "ECONNREFUSED" }] } := by
  constructor
  · have h := (broken_link_recording_amended demoWorld "https://e.test"
      "https://e.test/missing" 0 5 initState (by decide) (by decide) (by decide)).1
      404 (by decide)
    rw [h]
    decide
  · have h := (broken_link_recording_amended demoWorld "https://e.test"
      "https://e.test/down" 0 5 initState (by decide) (by decide) (by decide)).2.1
      "ECONNREFUSED" (by decide)
    rw [h]
    decide

/-- Claim C2 (code_bug evidence): on a self-referential sitemap index the
source recursion `parseSitemap → processSitemapIndex → fetch child →
parseSitemap` has no visited-sitemap guard and never terminates — the
fuel-indexed model exhausts every fuel bound (returns `none` for all
`fuel`), so no terminating run with a reconciled URL set exists. -/
theorem sitemap_cycle_diverges :
    ∀ (fuel : Nat) (acc : List String),
      parseSitemapFuel cyclicWorld fuel cyclicDoc acc = none := by
  intro fuel
  induction fuel with
  | zero => intro acc; rfl
  | succ fuel ih =>
    intro acc
    show parseSitemapFuel cyclicWorld (fuel + 1)
        (SitemapDoc.index ["https://e.test/sitemap.xml"]) acc = none
    have hcs : ∀ c : String, cyclicWorld.sitemap c = some cyclicDoc := fun _ => rfl
    simp only [parseSitemapFuel, processSitemapIndex, List.foldl, hcs, ih]
    rfl

/-- Claim C6 counterexample: `generateReport` performs filesystem writes
(its effect trace is non-empty), and two calls on the very same crawl and
sitemap state but different clock instants return different reports (the
`dateGenerated` field), so it is not a pure function of the accumulated
state alone. -/
theorem report_purity_cex :
    (generateReport emptyRender emptyRender "2024-01-01T00:00:00.000Z"
      "https://e.test" initState).2 ≠ [] ∧
    (generateReport emptyRender emptyRender "2024-01-01T00:00:00.000Z"
      "https://e.test" initState).1 ≠
    (generateReport emptyRender emptyRender "2024-01-02T00:00:00.000Z"
      "https://e.test" initState).1 := by
  constructor <;> decide

/-- Claim C6 as amended: the report value is a pure function of the state
and the generation timestamp — independent of the renderer collaborators —
and `generateReport` performs no network access, but it does write exactly
the two report files (`seo-report.json` and `seo-report.html`). -/
theorem report_effects_amended :
    ∀ (jsonRender htmlRender : Report → String) (now baseUrl : String)
      (st : CrawlState),
      (generateReport jsonRender htmlRender now baseUrl st).1 =
        buildReport now baseUrl st ∧
      (∀ (jr2 hr2 : Report → String),
        (generateReport jsonRender htmlRender now baseUrl st).1 =
        (generateReport jr2 hr2 now baseUrl st).1) ∧
      (generateReport jsonRender htmlRender now baseUrl st).2 =
        [Effect.fsWrite "seo-report.json" (jsonRender (buildReport now baseUrl st)),
         Effect.fsWrite "seo-report.html" (htmlRender (buildReport now baseUrl st))] ∧
      (∀ e, e ∈ (generateReport jsonRender htmlRender now baseUrl st).2 →
        ∀ u, e ≠ Effect.netGet u) := by
  intro jsonRender htmlRender now baseUrl st
  refine ⟨rfl, fun _ _ => rfl, rfl, ?_⟩
  intro e he u
  rcases List.mem_pair.mp he with he | he <;> subst he <;> intro hc <;> cases hc

/-- Witness for the amended C6 at concrete inputs. -/
theorem report_effects_amended_witness :
    (generateReport emptyRender emptyRender "T" "https://e.test" initState).1 =
      buildReport "T" "https://e.test" initState ∧
    Effect.fsWrite "seo-report.json" "" ≠ Effect.netGet "https://e.test" := by
  have h := report_effects_amended emptyRender emptyRender "T" "https://e.test" initState
  exact ⟨h.1, h.2.2.2 (Effect.fsWrite "seo-report.json" "") (by decide) "https://e.test"⟩

/-- Claim C7 (code_bug evidence): in a run whose single crawled page has an
empty title, no description and no H1, and whose sitemap declares one extra
URL, the final report records the missing-title page and the
sitemap-mismatch set, yet the issues list is empty: the "missing ..."
branches iterate maps that only ever contain truthy values, and the issue
collection runs before the sitemap is fetched and compared. -/
theorem issues_list_bug :
    (analyze issuesWorld emptyRender emptyRender "T" 10 "https://e.test"
      "https://e.test/" 10).map
      (fun r => (r.1.issues, r.1.crawlStats.urlsWithoutTitle,
                 r.1.sitemapStats.urlsInSitemapButNotCrawled)) =
    some ([], ["https://e.test/"], ["https://e.test/extra"]) := by decide

/-- Claim C8 counterexample: a visited URL whose fetch failed at the
transport level has the sentinel `0` stored in `statusCodes`, yet its
report record shows `"unknown"`, not `0` — the `|| "unknown"` default in
`generateReport` also fires on the falsy stored `0`. -/
theorem page_record_status_cex :
    aGet transportState.statusCodes "https://e.test/x" = some 0 ∧
    ((buildReport "T" "https://e.test" transportState).pageMeta.map
      (fun r => r.status)) = [StatusVal.unknown] ∧
    StatusVal.unknown ≠ StatusVal.num 0 := by
  refine ⟨?_, ?_, ?_⟩ <;> decide

/-- Claim C8 as amended: the report emits exactly one record per visited
URL, in order; every absent field defaults to the empty string / 0 / the
empty meta-tags object and present fields are copied verbatim; a recorded
non-zero status appears as that number, while an absent status — or the
transport-failure sentinel `0`, which the `||` default masks — appears as
`"unknown"`. -/
theorem page_record_totality_amended :
    ∀ (now baseUrl : String) (st : CrawlState),
      ((buildReport now baseUrl st).pageMeta.map (fun r => r.url)) = st.visitedUrls ∧
      ∀ r, r ∈ (buildReport now baseUrl st).pageMeta →
        (aGet st.statusCodes r.url = none → r.status = StatusVal.unknown) ∧
        (aGet st.statusCodes r.url = some 0 → r.status = StatusVal.unknown) ∧
        (∀ s, aGet st.statusCodes r.url = some s → s ≠ 0 →
          r.status = StatusVal.num s) ∧
        (aGet st.pagesTitles r.url = none → r.title = "" ∧ r.titleLength = 0) ∧
        (∀ t, aGet st.pagesTitles r.url = some t →
          r.title = t ∧ r.titleLength = t.length) ∧
        (aGet st.pagesDescriptions r.url = none →
          r.description = "" ∧ r.descriptionLength = 0) ∧
        (∀ d, aGet st.pagesDescriptions r.url = some d →
          r.description = d ∧ r.descriptionLength = d.length) ∧
        (aGet st.pagesH1 r.url = none → r.h1 = "") ∧
        (aGet st.internalLinks r.url = none → r.internalLinksCount = 0) ∧
        (aGet st.externalLinks r.url = none → r.externalLinksCount = 0) ∧
        (aGet st.pagesMetaTags r.url = none → r.metaTags = {}) := by
  intro now baseUrl st
  constructor
  · show (st.visitedUrls.map (pageRecordFor st)).map (fun r => r.url) = st.visitedUrls
    rw [List.map_map]
    exact List.map_id st.visitedUrls
  · intro r hr
    rcases List.mem_map.mp hr with ⟨u, hu, rfl⟩
    have hurl : (pageRecordFor st u).url = u := rfl
    rw [hurl]
    refine ⟨?_, ?_, ?_, ?_, ?_, ?_, ?_, ?_, ?_, ?_, ?_⟩
    · intro h
      simp [pageRecordFor, statusField, h]
    · intro h
      simp [pageRecordFor, statusField, h]
    · intro s h hs
      simp [pageRecordFor, statusField, h, hs]
    · intro h
      simp [pageRecordFor, h]
    · intro t h
      simp [pageRecordFor, h]
    · intro h
      simp [pageRecordFor, h]
    · intro d h
      simp [pageRecordFor, h]
    · intro h
      simp [pageRecordFor, h]
    · intro h
      simp [pageRecordFor, h]
    · intro h
      simp [pageRecordFor, h]
    · intro h
      simp [pageRecordFor, h]

/-- Witness for the amended C8 at a concrete state with a transport-failure
record. -/
theorem page_record_totality_amended_witness :
    ((buildReport "T" "https://e.test" transportState).pageMeta.map
      (fun r => r.url)) = transportState.visitedUrls ∧
    (pageRecordFor transportState "https://e.test/x").status = StatusVal.unknown := by
  have h := page_record_totality_amended "T" "https://e.test" transportState
  refine ⟨h.1, ?_⟩
  exact ((h.2 (pageRecordFor transportState "https://e.test/x") (by decide)).2.1)
    (by decide)

/-- Claim C9 (AI fallback on malformed response): whenever the AI call
throws, or its `output_text` is absent/empty, or the brace-trimmed text
fails to parse as JSON, `optimizeTitle` returns the original title,
`optimizeDescription` the original description, and
`generateKeywordSuggestions` the original keyword list — the functions are
total, so the failure never propagates to the caller. -/
theorem ai_fallback :
    ∀ (jp : String → Option JVal) (rt rd rk : AIResp) (title desc : String)
      (keywords : List String),
      noValidJson jp rt = true → noValidJson jp rd = true →
      noValidJson jp rk = true →
      optimizeTitle jp rt title = JVal.jstr title ∧
      optimizeDescription jp rd desc = JVal.jstr desc ∧
      generateKeywordSuggestions jp rk keywords =
        JVal.jarr (keywords.map JVal.jstr) := by
  intro jp rt rd rk title desc keywords h1 h2 h3
  refine ⟨?_, ?_, ?_⟩
  · rcases rt with _ | ⟨_ | out⟩
    · rfl
    · rfl
    · simp only [noValidJson] at h1
      simp only [optimizeTitle]
      by_cases ho : out = ""
      · rw [if_pos ho]
      · rw [if_neg ho]
        simp only [ho, decide_eq_true_eq, Bool.or_eq_true] at h1
        rcases hn : cleanAndParseJSON jp out with _ | v
        · rfl
        · rw [hn] at h1
          simp at h1
  · rcases rd with _ | ⟨_ | out⟩
    · rfl
    · rfl
    · simp only [noValidJson] at h2
      simp only [optimizeDescription]
      by_cases ho : out = ""
      · rw [if_pos ho]
      · rw [if_neg ho]
        simp only [ho, decide_eq_true_eq, Bool.or_eq_true] at h2
        rcases hn : cleanAndParseJSON jp out with _ | v
        · rfl
        · rw [hn] at h2
          simp at h2
  · rcases rk with _ | ⟨_ | out⟩
    · rfl
    · rfl
    · simp only [noValidJson] at h3
      simp only [generateKeywordSuggestions]
      by_cases ho : out = ""
      · rw [if_pos ho]
      · rw [if_neg ho]
        simp only [ho, decide_eq_true_eq, Bool.or_eq_true] at h3
        rcases hn : cleanAndParseJSON jp out with _ | v
        · rfl
        · rw [hn] at h3
          simp at h3

/-- Witness for C9 at concrete malformed responses. -/
theorem ai_fallback_witness :
    optimizeTitle jpNone (AIResp.resp (some "no json here")) "My title" =
      JVal.jstr "My title" ∧
    optimizeDescription jpNone AIResp.err "My description" =
      JVal.jstr "My description" ∧
    generateKeywordSuggestions jpNone (AIResp.resp none) ["k1", "k2"] =
      JVal.jarr [JVal.jstr "k1", JVal.jstr "k2"] :=
  ai_fallback jpNone (AIResp.resp (some "no json here")) AIResp.err
    (AIResp.resp none) "My title" "My description" ["k1", "k2"]
    (by decide) (by decide) (by decide)

theorem extractLinksLoop_extern_mono (w : World) (baseUrl currentUrl : String) :
    ∀ (hrefs links intAcc extAcc : List String) (x : String), x ∈ extAcc →
      x ∈ (extractLinksLoop w baseUrl currentUrl hrefs links intAcc extAcc).2.2 := by
  intro hrefs
  induction hrefs with
  | nil => exact fun links intAcc extAcc x hx => hx
  | cons h t ih =>
    intro links intAcc extAcc x hx
    simp only [extractLinksLoop]
    split
    · exact ih links intAcc extAcc x hx
    split
    · exact ih links intAcc extAcc x hx
    rcases hn : normalizeUrl w baseUrl h currentUrl with _ | n
    · exact ih links intAcc extAcc x hx
    · dsimp only
      split
      · exact ih _ _ extAcc x hx
      · exact ih _ intAcc (extAcc ++ [n]) x (List.mem_append_left _ hx)

theorem extractLinksLoop_extern_mem (w : World) (baseUrl currentUrl : String) :
    ∀ (hrefs links intAcc extAcc : List String) (href n : String),
      href ∈ hrefs → href ≠ "" → specialHref href = false →
      isInternalUrl baseUrl href = false →
      normalizeUrl w baseUrl href currentUrl = some n →
      n ∈ (extractLinksLoop w baseUrl currentUrl hrefs links intAcc extAcc).2.2 := by
  intro hrefs
  induction hrefs with
  | nil =>
    intro links intAcc extAcc href n hmem
    cases hmem
  | cons h t ih =>
    intro links intAcc extAcc href n hmem hne hsp hraw hnorm
    rcases List.mem_cons.mp hmem with hmem | hmem
    · subst hmem
      simp only [extractLinksLoop]
      rw [if_neg hne, hsp]
      simp only [Bool.false_eq_true, if_false]
      rw [hnorm]
      dsimp only
      rw [hraw]
      simp only [Bool.false_eq_true, if_false]
      exact extractLinksLoop_extern_mono w baseUrl currentUrl t _ _ _ n
        (List.mem_append_right _ (by simp))
    · simp only [extractLinksLoop]
      split
      · exact ih links intAcc extAcc href n hmem hne hsp hraw hnorm
      split
      · exact ih links intAcc extAcc href n hmem hne hsp hraw hnorm
      rcases hn : normalizeUrl w baseUrl h currentUrl with _ | m
      · exact ih links intAcc extAcc href n hmem hne hsp hraw hnorm
      · dsimp only
        split
        · exact ih _ _ extAcc href n hmem hne hsp hraw hnorm
        · exact ih _ intAcc (extAcc ++ [m]) href n hmem hne hsp hraw hnorm

/-- Claim C10 (raw-href classification vs normalized recursion): a
document-relative href (non-empty, non-special, not starting with `/` and
not starting with the base origin) is pushed — in normalized form — onto
the page's `externalLinks` list, because `extractLinks` classifies the RAW
href; yet whenever its normalized form does start with the base origin it
passes `isInternalUrl` and is recursed into.  Concretely, in the demo run
the href `about.html` on the start page lands in
`externalLinks["https://e.test/"]` as `https://e.test/about.html` while the
same URL is also in the visited set. -/
theorem raw_href_classification :
    (∀ (w : World) (baseUrl currentUrl href n : String) (page : Page)
       (st : CrawlState),
       href ∈ page.hrefs → href ≠ "" → specialHref href = false →
       strStartsWith href "/" = false → strStartsWith href baseUrl = false →
       normalizeUrl w baseUrl href currentUrl = some n →
       n ∈ (aGet ((extractLinks w baseUrl currentUrl page st).2).externalLinks
         currentUrl).getD [] ∧
       isInternalUrl baseUrl href = false ∧
       (strStartsWith n baseUrl = true → isInternalUrl baseUrl n = true)) ∧
    ("https://e.test/about.html" ∈
       (aGet (crawl demoWorld "https://e.test" "https://e.test/" 0 3
         initState).externalLinks "https://e.test/").getD [] ∧
     "https://e.test/about.html" ∈
       (crawl demoWorld "https://e.test" "https://e.test/" 0 3
         initState).visitedUrls) := by
  constructor
  · intro w baseUrl currentUrl href n page st hmem hne hsp hslash hbase hnorm
    have hraw : isInternalUrl baseUrl href = false := by
      unfold isInternalUrl
      rw [hslash, hbase]
      rfl
    refine ⟨?_, hraw, ?_⟩
    · show n ∈ (aGet (aSet st.externalLinks currentUrl
        (extractLinksLoop w baseUrl currentUrl page.hrefs [] [] []).2.2)
        currentUrl).getD []
      rw [aGet_aSet_self]
      exact extractLinksLoop_extern_mem w baseUrl currentUrl page.hrefs [] [] []
        href n hmem hne hsp hraw hnorm
    · intro hsb
      unfold isInternalUrl
      rw [hsb]
      simp
  · exact ⟨by decide, by decide⟩

/-- Witness for C10 at concrete inputs: `about.html` on the demo start page
satisfies every hypothesis and is classified external. -/
theorem raw_href_classification_witness :
    "https://e.test/about.html" ∈
      (aGet ((extractLinks demoWorld "https://e.test" "https://e.test/" demoPage
        initState).2).externalLinks "https://e.test/").getD [] ∧
    isInternalUrl "https://e.test" "about.html" = false := by
  have h := raw_href_classification.1 demoWorld "https://e.test" "https://e.test/"
    "about.html" "https://e.test/about.html" demoPage initState
    (by decide) (by decide) (by decide) (by decide) (by decide) (by decide)
  exact ⟨h.1, h.2.1⟩
